import Mathlib

/-!
Verification of the hybrid envelope-encryption and signature module
(`message_encryption.cpp` / `message_encryption.h`).

The development shallowly embeds the module's functions over byte
sequences modelled as `List Nat`.  The OpenSSL primitives the module
calls are modelled as follows, from their documented behaviour:

* `EVP_aes_256_cbc` encryption/decryption is CBC mode with PKCS#7
  block-alignment padding over an abstract keyed block permutation
  (`Prims.encB` / `Prims.decB`); theorems that need the permutation
  property take it as an explicit hypothesis (`GoodCipher`).
* RSA key parsing (`PEM_read_bio_RSA_PUBKEY` / `PEM_read_bio_RSAPrivateKey`),
  OAEP wrapping (`RSA_public_encrypt` / `RSA_private_decrypt`) and
  digest signing/verification (`EVP_DigestSign*` / `EVP_DigestVerify*`)
  are abstract parameters of the `Prims` structure; `RSA_size` is the
  `size` field of a parsed key and the modulus value (`BN_cmp` on
  `rsa->n`) is the `n` field.

Random generation (`RAND_bytes` for the session key and IV) is modelled
by passing the generated bytes as explicit arguments.  The control flow,
length checks, buffer arithmetic and error strings of the C++ code are
embedded faithfully; C++ exceptions become `Except.error` carrying the
thrown message string.
-/

set_option maxRecDepth 16384

namespace MessageEncryption

/-- bytes of the C++ constant `ENCR_MARKER = "MESSAGE:"`. -/
def ENCR_MARKER : List Nat := [77, 69, 83, 83, 65, 71, 69, 58]

/-- the C++ constant `ENCR_MARKER_SIZE`. -/
def ENCR_MARKER_SIZE : Nat := 8

/-- bytes of the C++ constant `MSG_RECOGNIZE_TAG = "MSG"` (message prefix to
recognize after decode). -/
def MSG_RECOGNIZE_TAG : List Nat := [77, 83, 71]

/-- the C++ constant `RSA_SIGNATURE_LENGTH`. -/
def RSA_SIGNATURE_LENGTH : Nat := 256

/-- OpenSSL's `AES_BLOCK_SIZE` (16 bytes). -/
def AES_BLOCK_SIZE : Nat := 16

/-- the C++ constant `AES_256_KEY_LENGTH_BYTES` (256 / 8). -/
def AES_256_KEY_LENGTH_BYTES : Nat := 32

/-- the C++ constant `AES_256_IV_LENGTH_BYTES`. -/
def AES_256_IV_LENGTH_BYTES : Nat := 16

/-- byte-wise exclusive or, used by CBC chaining. -/
def xorBytes (a b : List Nat) : List Nat := List.zipWith (fun x y => x ^^^ y) a b

/-- split a byte list into 16-byte blocks (fuel-indexed so that the
definition is structurally recursive and evaluates in the kernel). -/
def toBlocksAux : Nat → List Nat → List (List Nat)
  | 0, _ => []
  | _ + 1, [] => []
  | fuel + 1, a :: l => ((a :: l).take 16) :: toBlocksAux fuel ((a :: l).drop 16)

/-- split a byte list into 16-byte blocks (final partial block kept as is). -/
def toBlocks (l : List Nat) : List (List Nat) := toBlocksAux l.length l

/-- concatenation of blocks back into a byte list. -/
def joinBlocks : List (List Nat) → List Nat
  | [] => []
  | b :: bs => b ++ joinBlocks bs

/-- CBC encryption at block level: each plaintext block is xor-ed with the
previous ciphertext block (initially the IV) and then encrypted. -/
def cbcEncBlocks (E : List Nat → List Nat) : List Nat → List (List Nat) → List (List Nat)
  | _, [] => []
  | prev, b :: bs => E (xorBytes b prev) :: cbcEncBlocks E (E (xorBytes b prev)) bs

/-- CBC decryption at block level. -/
def cbcDecBlocks (D : List Nat → List Nat) : List Nat → List (List Nat) → List (List Nat)
  | _, [] => []
  | prev, c :: cs => xorBytes (D c) prev :: cbcDecBlocks D c cs

/-- CBC encryption of a byte list under block function `E` and IV `iv`. -/
def cbcEnc (E : List Nat → List Nat) (iv data : List Nat) : List Nat :=
  joinBlocks (cbcEncBlocks E iv (toBlocks data))

/-- CBC decryption of a byte list under block function `D` and IV `iv`. -/
def cbcDec (D : List Nat → List Nat) (iv data : List Nat) : List Nat :=
  joinBlocks (cbcDecBlocks D iv (toBlocks data))

/-- PKCS#7 block-alignment padding: append `16 - len % 16` copies of that
value (a full block when the data is already aligned), as performed by
OpenSSL's `EVP_EncryptFinal_ex` for AES-256-CBC. -/
def pkcs7Pad (data : List Nat) : List Nat :=
  data ++ List.replicate (16 - data.length % 16) (16 - data.length % 16)

/-- PKCS#7 padding validation and removal, as performed by OpenSSL's
`EVP_DecryptFinal_ex`: the last byte `p` must satisfy `1 ≤ p ≤ 16` and the
last `p` bytes must all equal `p`; otherwise validation fails. -/
def pkcs7Unpad (data : List Nat) : Option (List Nat) :=
  match data.getLast? with
  | none => none
  | some p =>
    if 1 ≤ p ∧ p ≤ 16 ∧ p ≤ data.length ∧
        data.drop (data.length - p) = List.replicate p p then
      some (data.take (data.length - p))
    else none

/-- predicate: every block in the list has length 16. -/
def Blocks16 (bs : List (List Nat)) : Prop := ∀ b ∈ bs, b.length = 16

/-- a parsed RSA public key, as produced by `PEM_read_bio_RSA_PUBKEY`:
`n` is the modulus value (`rsa->n`), `size` the modulus byte length
(`RSA_size`), and `wrap` models `RSA_public_encrypt` with OAEP padding
(`none` when the primitive returns -1). -/
structure RsaPubKey where
  n : Nat
  size : Nat
  wrap : List Nat → Option (List Nat)

/-- a parsed RSA private key, as produced by `PEM_read_bio_RSAPrivateKey`:
`n` is the modulus value, `size` the modulus byte length, and `unwrap`
models `RSA_private_decrypt` with OAEP padding. -/
structure RsaPrivKey where
  n : Nat
  size : Nat
  unwrap : List Nat → Option (List Nat)

/-- abstract OpenSSL primitives the module is parameterised over:
the AES-256 keyed block permutation (`encB`, `decB`), PEM key parsing
(`parsePub`, `parsePriv`), and the RSA-SHA256 signature primitives
(`rsaSign` for `EVP_DigestSign*`, `rsaVerify` for `EVP_DigestVerify*`,
where `none` models a failing verification context and `some b` a
performed verification with outcome `b`). -/
structure Prims where
  encB : List Nat → List Nat → List Nat
  decB : List Nat → List Nat → List Nat
  parsePub : String → Option RsaPubKey
  parsePriv : String → Option RsaPrivKey
  rsaSign : RsaPrivKey → List Nat → Option (List Nat)
  rsaVerify : RsaPubKey → List Nat → List Nat → Option Bool

/-- embedding of `encryptWithAES` (message_encryption.cpp:42-73): computes
`encryptedSize = dataLength + AES_BLOCK_SIZE - dataLength % AES_BLOCK_SIZE`,
CBC-encrypts the padded data, and checks the produced length against
`encryptedSize` exactly as the C++ code does before returning. -/
def encryptWithAES (pr : Prims) (data key iv : List Nat) : Except String (List Nat) :=
  if (cbcEnc (pr.encB key) iv (pkcs7Pad data)).length =
      data.length + AES_BLOCK_SIZE - data.length % AES_BLOCK_SIZE then
    Except.ok (cbcEnc (pr.encB key) iv (pkcs7Pad data))
  else Except.error "Failed to encrypt data"

/-- embedding of `encryptWithRsa` (message_encryption.cpp:75-101): parses the
public key, OAEP-wraps the data and checks the result length equals
`RSA_size(rsa)`. -/
def encryptWithRsa (pr : Prims) (data : List Nat) (rsaKey : String) : Except String (List Nat) :=
  match pr.parsePub rsaKey with
  | none => Except.error "Failed to create key RSA for message encryption"
  | some rsa =>
    match rsa.wrap data with
    | none => Except.error "Failed to encrypt with RSA key"
    | some encryptedData =>
      if encryptedData.length = rsa.size then Except.ok encryptedData
      else Except.error "Failed to encrypt with RSA key"

/-- embedding of `createEncryptedMessage` (message_encryption.cpp:104-131).
The fresh session key and IV produced by `RAND_bytes` are passed as the
explicit arguments `aesKey` and `aesIv`.  Note that the plaintext `data` is
AES-encrypted exactly as supplied: no recognition tag is prepended here. -/
def createEncryptedMessage (pr : Prims) (aesKey aesIv data : List Nat)
    (publicRsaKey : String) : Except String (List Nat) :=
  match encryptWithAES pr data aesKey aesIv with
  | Except.error e => Except.error e
  | Except.ok encryptedMsg =>
    match encryptWithRsa pr aesKey publicRsaKey with
    | Except.error e => Except.error e
    | Except.ok encryptedKey =>
      Except.ok (ENCR_MARKER ++ (encryptedKey ++ (aesIv ++ encryptedMsg)))

/-- embedding of `decryptKey` (message_encryption.cpp:133-160): parses the
private key, requires `dataLength ≥ RSA_size`, OAEP-decrypts the first
`RSA_size` bytes and requires the result to be exactly 32 bytes; returns the
session key together with the number of consumed bytes (`rsaSize`). -/
def decryptKey (pr : Prims) (encryptedData : List Nat) (rsaKey : String) :
    Except String (List Nat × Nat) :=
  match pr.parsePriv rsaKey with
  | none => Except.error "Failed to create RSA"
  | some rsa =>
    if encryptedData.length < rsa.size then Except.error "Failed to decrypt message"
    else
      match rsa.unwrap (encryptedData.take rsa.size) with
      | none => Except.error "Failed to decrypt message"
      | some decryptedData =>
        if decryptedData.length = AES_256_KEY_LENGTH_BYTES then
          Except.ok (decryptedData, rsa.size)
        else Except.error "Failed to decrypt message"

/-- embedding of `readIv` (message_encryption.cpp:162-169). -/
def readIv (data : List Nat) : Except String (List Nat) :=
  if data.length < AES_256_IV_LENGTH_BYTES then Except.error "Failed to decrypt message"
  else Except.ok (data.take AES_256_IV_LENGTH_BYTES)

/-- embedding of `decryptData` (message_encryption.cpp:171-211): rejects an
empty or misaligned ciphertext, CBC-decrypts and removes padding, compares
the leading bytes with `MSG_RECOGNIZE_TAG` and strips them.  The C++ code
builds the comparison string from the first 3 bytes without checking that
the decrypted buffer holds 3 bytes (it reads `begin()+3` unconditionally);
this model uses the total `List.take`, and the out-of-bounds condition is
analysed separately (see `C10_short_decrypted_buffer`). -/
def decryptData (pr : Prims) (encryptedData key iv : List Nat) :
    Except String (List Nat) :=
  if encryptedData.length = 0 ∨ encryptedData.length % AES_BLOCK_SIZE ≠ 0 then
    Except.error "Failed to decrypt message"
  else
    match pkcs7Unpad (cbcDec (pr.decB key) iv encryptedData) with
    | none => Except.error "Failed to decrypt message"
    | some decryptedData =>
      if decryptedData.take MSG_RECOGNIZE_TAG.length = MSG_RECOGNIZE_TAG then
        Except.ok (decryptedData.drop MSG_RECOGNIZE_TAG.length)
      else Except.error "Failed to decrypt message"

/-- embedding of `checkMessageMarker` (message_encryption.cpp:213-220). -/
def checkMessageMarker (data : List Nat) : Except String Unit :=
  if data.length < ENCR_MARKER_SIZE ∨ data.take ENCR_MARKER_SIZE ≠ ENCR_MARKER then
    Except.error "Failed to decrypt message"
  else Except.ok ()

/-- embedding of `createDecryptedMessage` (message_encryption.cpp:223-243):
checks the marker, consumes the wrapped key and the IV by pointer
arithmetic (modelled with `List.drop`), and decrypts the remainder. -/
def createDecryptedMessage (pr : Prims) (encryptedData : List Nat)
    (privateRsaKey : String) : Except String (List Nat) :=
  match checkMessageMarker encryptedData with
  | Except.error e => Except.error e
  | Except.ok _ =>
    match decryptKey pr (encryptedData.drop ENCR_MARKER_SIZE) privateRsaKey with
    | Except.error e => Except.error e
    | Except.ok (aesKey, encKeyLen) =>
      match readIv ((encryptedData.drop ENCR_MARKER_SIZE).drop encKeyLen) with
      | Except.error e => Except.error e
      | Except.ok aesIv =>
        decryptData pr (((encryptedData.drop ENCR_MARKER_SIZE).drop encKeyLen).drop
          AES_256_IV_LENGTH_BYTES) aesKey aesIv

/-- embedding of `createPrivateRSA` (message_encryption.cpp:314-323). -/
def createPrivateRSA (pr : Prims) (key : String) : Option RsaPrivKey :=
  pr.parsePriv key

/-- embedding of `createPublicRSA` (message_encryption.cpp:325-336). -/
def createPublicRSA (pr : Prims) (key : String) : Option RsaPubKey :=
  pr.parsePub key

/-- embedding of `matchRSAKeys` (message_encryption.cpp:338-353): true exactly
when both keys parse and `BN_cmp(public_key->n, private_key->n) == 0`. -/
def matchRSAKeys (pr : Prims) (publicKey privateKey : String) : Bool :=
  match createPrivateRSA pr privateKey, createPublicRSA pr publicKey with
  | some privateParsed, some publicParsed => publicParsed.n == privateParsed.n
  | _, _ => false

/-- embedding of `RSASign` (message_encryption.cpp:355-388): with a null RSA
(parse failure) the EVP signing context cannot be initialised and the
function reports failure (`none`); otherwise it produces the signature of
the digest primitive. -/
def RSASign (pr : Prims) (rsa : Option RsaPrivKey) (msg : List Nat) :
    Option (List Nat) :=
  match rsa with
  | none => none
  | some privateParsed => pr.rsaSign privateParsed msg

/-- embedding of `signMessage` (message_encryption.cpp:427-438): throws
unless `RSASign` succeeds with a signature of exactly
`RSA_SIGNATURE_LENGTH` (256) bytes. -/
def signMessage (pr : Prims) (privateKey : String) (plainText : List Nat) :
    Except String (List Nat) :=
  match RSASign pr (createPrivateRSA pr privateKey) plainText with
  | none => Except.error "Could not sign message"
  | some signature =>
    if signature.length = RSA_SIGNATURE_LENGTH then Except.ok signature
    else Except.error "Could not sign message"

/-- embedding of `RSAVerifySignature` (message_encryption.cpp:390-425):
returns the pair `(result, Authentic)` of the C++ function's return value
and output parameter: `(true, true)` when verification was performed and
matched, `(true, false)` when performed and mismatched, `(false, false)`
when verification could not be carried out (null key from a parse failure,
or a failing verification context). -/
def RSAVerifySignature (pr : Prims) (rsa : Option RsaPubKey)
    (signature msg : List Nat) : Bool × Bool :=
  match rsa with
  | none => (false, false)
  | some publicParsed =>
    match pr.rsaVerify publicParsed msg signature with
    | some true => (true, true)
    | some false => (true, false)
    | none => (false, false)

/-- embedding of `verifySignature` (message_encryption.cpp:440-449): returns
`result && authentic`, collapsing the could-not-verify case and the
mismatch case into the same `false`. -/
def verifySignature (pr : Prims) (publicKey : String) (plainText signature : List Nat) :
    Bool :=
  (RSAVerifySignature pr (createPublicRSA pr publicKey) signature plainText).1 &&
    (RSAVerifySignature pr (createPublicRSA pr publicKey) signature plainText).2

/-- the keyed block permutation assumption for the abstract AES-256 cipher:
on 16-byte blocks, encryption preserves the length and decryption inverts
encryption. -/
def GoodCipher (pr : Prims) (key : List Nat) : Prop :=
  ∀ b : List Nat, b.length = 16 →
    (pr.encB key b).length = 16 ∧ pr.decB key (pr.encB key b) = b

/-- the matched-keypair assumption: both keys parse, the sizes agree
(equal moduli), and OAEP unwrapping with the private key inverts OAEP
wrapping with the public key on 32-byte inputs, producing a wrapped block
of exactly the modulus byte length. -/
def KeyPairMatch (pr : Prims) (pubKey privKey : String)
    (P : RsaPubKey) (S : RsaPrivKey) : Prop :=
  pr.parsePub pubKey = some P ∧ pr.parsePriv privKey = some S ∧
    S.size = P.size ∧
    ∀ k : List Nat, k.length = 32 →
      ∃ w, P.wrap k = some w ∧ w.length = P.size ∧ S.unwrap w = some k

/-- a concrete 32-byte session key used for witnesses. -/
def key0 : List Nat := List.replicate 32 7

/-- a concrete 16-byte IV used for witnesses. -/
def iv0 : List Nat := List.replicate 16 0

/-- the OAEP wrapping of `key0` under the concrete public key below. -/
def wrapped0 : List Nat := key0 ++ List.replicate 224 0

/-- bytes of the plaintext "hello world". -/
def helloWorld : List Nat := [104, 101, 108, 108, 111, 32, 119, 111, 114, 108, 100]

/-- a concrete injective 256-byte signature encoding used to instantiate the
abstract signing primitive in witnesses: modulus value, message length,
message, zero padding. -/
def toySig (n : Nat) (m : List Nat) : List Nat :=
  n :: m.length :: (m ++ List.replicate (254 - m.length) 0)

/-- concrete 2048-bit public key (modulus byte length 256) for witnesses. -/
def pub1 : RsaPubKey where
  n := 1
  size := 256
  wrap := fun k => if k.length = 32 then some (k ++ List.replicate 224 0) else none

/-- private key matching `pub1`. -/
def priv1 : RsaPrivKey where
  n := 1
  size := 256
  unwrap := fun w => if w.length = 256 then some (w.take 32) else none

/-- public key of an independently generated pair (different modulus). -/
def pub2 : RsaPubKey where
  n := 2
  size := 256
  wrap := fun k => if k.length = 32 then some (k ++ List.replicate 224 0) else none

/-- private key matching `pub2`. -/
def priv2 : RsaPrivKey where
  n := 2
  size := 256
  unwrap := fun w => if w.length = 256 then some (w.take 32) else none

/-- a concrete, fully computable instantiation of the abstract primitives:
the identity block permutation, a two-entry PEM parser, and an injective
toy signature scheme.  Used to evaluate the embedded functions on concrete
inputs in witnesses and counterexamples. -/
def idPrims : Prims where
  encB := fun _ b => b
  decB := fun _ b => b
  parsePub := fun s =>
    if s = "PUB1" then some pub1 else if s = "PUB2" then some pub2 else none
  parsePriv := fun s =>
    if s = "PRIV1" then some priv1 else if s = "PRIV2" then some priv2 else none
  rsaSign := fun S m => some (toySig S.n m)
  rsaVerify := fun P m s => some (decide (s = toySig P.n m))

/-- the envelope produced for the empty plaintext with `idPrims`, `key0`,
`iv0`: the ciphertext is the single padding block. -/
def cexEnvEmpty : List Nat :=
  ENCR_MARKER ++ (wrapped0 ++ (iv0 ++ List.replicate 16 16))

/-- the ciphertext produced for the plaintext `[1, 2, 3, 4]` with `idPrims`,
`key0`, `iv0` (identity block cipher, zero IV): the padded plaintext. -/
def ct4 : List Nat := [1, 2, 3, 4] ++ List.replicate 12 12

/-- the envelope produced for the plaintext "hello world" with `idPrims`,
`key0`, `iv0`. -/
def envHello : List Nat :=
  ENCR_MARKER ++ (wrapped0 ++ (iv0 ++ (helloWorld ++ List.replicate 5 5)))

/-- the envelope produced for the plaintext `[9]` with `idPrims`, `key0`,
`iv0`. -/
def env9 : List Nat :=
  ENCR_MARKER ++ (wrapped0 ++ (iv0 ++ ([9] ++ List.replicate 15 15)))

theorem xorBytes_length (a b : List Nat) :
    (xorBytes a b).length = min a.length b.length :=
  List.length_zipWith _ a b

theorem xorBytes_cancel : ∀ a b : List Nat, a.length = b.length →
    xorBytes (xorBytes a b) b = a := by
  intro a
  induction a with
  | nil =>
    intro b h
    rcases b with _ | ⟨y, bs⟩
    · rfl
    · simp at h
  | cons x as ih =>
    intro b h
    rcases b with _ | ⟨y, bs⟩
    · simp at h
    · simp only [xorBytes, List.zipWith_cons_cons]
      have h' : as.length = bs.length := by simpa using h
      have hx : x ^^^ y ^^^ y = x := by
        rw [Nat.xor_assoc, Nat.xor_self, Nat.xor_zero]
      have ht := ih bs h'
      simp only [xorBytes] at ht
      rw [hx, ht]

theorem toBlocksAux_congr : ∀ (f g : Nat) (l : List Nat),
    l.length ≤ f → l.length ≤ g → toBlocksAux f l = toBlocksAux g l := by
  intro f
  induction f with
  | zero =>
    intro g l hf _
    have hl : l = [] := List.eq_nil_of_length_eq_zero (Nat.le_zero.mp hf)
    subst hl
    cases g <;> rfl
  | succ f ih =>
    intro g l hf hg
    cases l with
    | nil => cases g <;> rfl
    | cons a l' =>
      cases g with
      | zero => simp at hg
      | succ g' =>
        simp only [toBlocksAux]
        congr 1
        apply ih
        · rw [List.length_drop]
          simp only [List.length_cons] at hf ⊢
          omega
        · rw [List.length_drop]
          simp only [List.length_cons] at hg ⊢
          omega

theorem toBlocks_ne_nil_eq (l : List Nat) (h : l ≠ []) :
    toBlocks l = l.take 16 :: toBlocks (l.drop 16) := by
  rcases l with _ | ⟨a, l'⟩
  · exact absurd rfl h
  · show toBlocksAux (l'.length + 1) (a :: l') = _
    simp only [toBlocksAux]
    congr 1
    apply toBlocksAux_congr
    · rw [List.length_drop]
      simp only [List.length_cons]
      omega
    · exact Nat.le_refl _

theorem joinBlocks_toBlocksAux : ∀ (f : Nat) (l : List Nat), l.length ≤ f →
    joinBlocks (toBlocksAux f l) = l := by
  intro f
  induction f with
  | zero =>
    intro l hf
    have hl : l = [] := List.eq_nil_of_length_eq_zero (Nat.le_zero.mp hf)
    subst hl
    rfl
  | succ f ih =>
    intro l hf
    cases l with
    | nil => rfl
    | cons a l' =>
      simp only [toBlocksAux, joinBlocks]
      rw [ih _ (by rw [List.length_drop]; simp only [List.length_cons] at hf ⊢; omega)]
      exact List.take_append_drop 16 (a :: l')

theorem joinBlocks_toBlocks (l : List Nat) : joinBlocks (toBlocks l) = l :=
  joinBlocks_toBlocksAux _ _ (Nat.le_refl _)

theorem toBlocksAux_all16 : ∀ (f : Nat) (l : List Nat), l.length ≤ f →
    l.length % 16 = 0 → ∀ b ∈ toBlocksAux f l, b.length = 16 := by
  intro f
  induction f with
  | zero =>
    intro l hf _ b hb
    have hl : l = [] := List.eq_nil_of_length_eq_zero (Nat.le_zero.mp hf)
    subst hl
    simp [toBlocksAux] at hb
  | succ f ih =>
    intro l hf hmod b hb
    cases l with
    | nil => simp [toBlocksAux] at hb
    | cons a l' =>
      simp only [toBlocksAux, List.mem_cons] at hb
      have hlen : 16 ≤ (a :: l').length := by
        simp only [List.length_cons] at hmod ⊢
        omega
      rcases hb with hb | hb
      · subst hb
        rw [List.length_take]
        omega
      · exact ih _ (by rw [List.length_drop]; simp only [List.length_cons] at hf ⊢; omega)
          (by rw [List.length_drop]; omega) b hb

theorem toBlocks_all16 (l : List Nat) (h : l.length % 16 = 0) :
    Blocks16 (toBlocks l) :=
  fun b hb => toBlocksAux_all16 _ _ (Nat.le_refl _) h b hb

theorem toBlocks_append16 (c r : List Nat) (hc : c.length = 16) :
    toBlocks (c ++ r) = c :: toBlocks r := by
  have hne : c ++ r ≠ [] := by
    intro h
    have := congrArg List.length h
    simp [hc] at this
  rw [toBlocks_ne_nil_eq _ hne, List.take_left' hc, List.drop_left' hc]

theorem toBlocks_joinBlocks (bs : List (List Nat)) (h : Blocks16 bs) :
    toBlocks (joinBlocks bs) = bs := by
  induction bs with
  | nil => rfl
  | cons b bs ih =>
    simp only [joinBlocks]
    rw [toBlocks_append16 _ _ (h b (List.mem_cons_self _ _)),
      ih (fun x hx => h x (List.mem_cons_of_mem _ hx))]

theorem joinBlocks_length (bs : List (List Nat)) (h : Blocks16 bs) :
    (joinBlocks bs).length = 16 * bs.length := by
  induction bs with
  | nil => rfl
  | cons b bs ih =>
    simp only [joinBlocks, List.length_append, List.length_cons]
    rw [h b (List.mem_cons_self _ _), ih (fun x hx => h x (List.mem_cons_of_mem _ hx))]
    omega

theorem cbcEncBlocks_spec (E : List Nat → List Nat)
    (hE : ∀ b : List Nat, b.length = 16 → (E b).length = 16) :
    ∀ (bs : List (List Nat)) (prev : List Nat), prev.length = 16 → Blocks16 bs →
      Blocks16 (cbcEncBlocks E prev bs) ∧
        (cbcEncBlocks E prev bs).length = bs.length := by
  intro bs
  induction bs with
  | nil =>
    intro prev _ _
    exact ⟨fun b hb => absurd hb (List.not_mem_nil _), rfl⟩
  | cons b bs ih =>
    intro prev hprev hbs
    have hb16 : b.length = 16 := hbs b (List.mem_cons_self _ _)
    have hx : (xorBytes b prev).length = 16 := by
      rw [xorBytes_length, hb16, hprev]
      omega
    have hc : (E (xorBytes b prev)).length = 16 := hE _ hx
    obtain ⟨ih1, ih2⟩ := ih (E (xorBytes b prev)) hc
      (fun x hx' => hbs x (List.mem_cons_of_mem _ hx'))
    constructor
    · intro x hx'
      simp only [cbcEncBlocks, List.mem_cons] at hx'
      rcases hx' with rfl | hx'
      · exact hc
      · exact ih1 x hx'
    · simp only [cbcEncBlocks, List.length_cons, ih2]

theorem cbcDecBlocks_cbcEncBlocks (E D : List Nat → List Nat)
    (hED : ∀ b : List Nat, b.length = 16 → (E b).length = 16 ∧ D (E b) = b) :
    ∀ (bs : List (List Nat)) (prev : List Nat), prev.length = 16 → Blocks16 bs →
      cbcDecBlocks D prev (cbcEncBlocks E prev bs) = bs := by
  intro bs
  induction bs with
  | nil => intro prev _ _; rfl
  | cons b bs ih =>
    intro prev hprev hbs
    have hb16 : b.length = 16 := hbs b (List.mem_cons_self _ _)
    have hx : (xorBytes b prev).length = 16 := by
      rw [xorBytes_length, hb16, hprev]
      omega
    obtain ⟨hlen, hdec⟩ := hED _ hx
    simp only [cbcEncBlocks, cbcDecBlocks, hdec]
    congr 1
    · exact xorBytes_cancel b prev (by rw [hb16, hprev])
    · exact ih _ hlen (fun x hx' => hbs x (List.mem_cons_of_mem _ hx'))

theorem cbcEnc_length (E : List Nat → List Nat) (iv p : List Nat)
    (hE : ∀ b : List Nat, b.length = 16 → (E b).length = 16)
    (hiv : iv.length = 16) (hp : p.length % 16 = 0) :
    (cbcEnc E iv p).length = p.length := by
  have h16 := toBlocks_all16 p hp
  obtain ⟨henc16, hlen⟩ := cbcEncBlocks_spec E hE (toBlocks p) iv hiv h16
  rw [cbcEnc, joinBlocks_length _ henc16, hlen, ← joinBlocks_length _ h16,
    joinBlocks_toBlocks]

theorem cbcDec_cbcEnc (E D : List Nat → List Nat) (iv p : List Nat)
    (hED : ∀ b : List Nat, b.length = 16 → (E b).length = 16 ∧ D (E b) = b)
    (hiv : iv.length = 16) (hp : p.length % 16 = 0) :
    cbcDec D iv (cbcEnc E iv p) = p := by
  have h16 := toBlocks_all16 p hp
  have hE : ∀ b : List Nat, b.length = 16 → (E b).length = 16 :=
    fun b hb => (hED b hb).1
  obtain ⟨henc16, _⟩ := cbcEncBlocks_spec E hE (toBlocks p) iv hiv h16
  rw [cbcDec, cbcEnc, toBlocks_joinBlocks _ henc16,
    cbcDecBlocks_cbcEncBlocks E D hED (toBlocks p) iv hiv h16, joinBlocks_toBlocks]

theorem pkcs7Pad_length (d : List Nat) :
    (pkcs7Pad d).length = d.length + (16 - d.length % 16) := by
  simp [pkcs7Pad]

theorem pkcs7Pad_mod (d : List Nat) : (pkcs7Pad d).length % 16 = 0 := by
  rw [pkcs7Pad_length]
  omega

theorem pkcs7Unpad_pkcs7Pad (d : List Nat) : pkcs7Unpad (pkcs7Pad d) = some d := by
  have hp1 : 1 ≤ 16 - d.length % 16 := by omega
  have hp16 : 16 - d.length % 16 ≤ 16 := by omega
  have hlen := pkcs7Pad_length d
  have hlast : (pkcs7Pad d).getLast? = some (16 - d.length % 16) := by
    rw [pkcs7Pad, show 16 - d.length % 16 = (16 - d.length % 16 - 1) + 1 by omega]
    rw [List.replicate_succ', ← List.append_assoc, List.getLast?_concat]
  have hsub : (pkcs7Pad d).length - (16 - d.length % 16) = d.length := by omega
  have hdrop : (pkcs7Pad d).drop ((pkcs7Pad d).length - (16 - d.length % 16)) =
      List.replicate (16 - d.length % 16) (16 - d.length % 16) := by
    rw [hsub, pkcs7Pad, List.drop_left]
  simp only [pkcs7Unpad, hlast]
  rw [if_pos ⟨hp1, hp16, by omega, hdrop⟩, hsub, pkcs7Pad, List.take_left]

theorem encryptWithAES_eq (pr : Prims) (data key iv : List Nat)
    (hE : ∀ b : List Nat, b.length = 16 → (pr.encB key b).length = 16)
    (hiv : iv.length = 16) :
    encryptWithAES pr data key iv =
      Except.ok (cbcEnc (pr.encB key) iv (pkcs7Pad data)) := by
  unfold encryptWithAES
  rw [if_pos]
  rw [cbcEnc_length _ _ _ hE hiv (pkcs7Pad_mod data), pkcs7Pad_length]
  simp only [AES_BLOCK_SIZE]
  omega

theorem encryptWithRsa_eq (pr : Prims) (data : List Nat) (pubKey : String)
    (P : RsaPubKey) (w : List Nat)
    (hP : pr.parsePub pubKey = some P) (hw : P.wrap data = some w)
    (hwl : w.length = P.size) :
    encryptWithRsa pr data pubKey = Except.ok w := by
  simp only [encryptWithRsa, hP, hw]
  rw [if_pos hwl]

theorem createEncryptedMessage_eq (pr : Prims) (key iv data : List Nat)
    (pubKey : String) (P : RsaPubKey) (w : List Nat)
    (hP : pr.parsePub pubKey = some P) (hw : P.wrap key = some w)
    (hwl : w.length = P.size)
    (hE : ∀ b : List Nat, b.length = 16 → (pr.encB key b).length = 16)
    (hiv : iv.length = 16) :
    createEncryptedMessage pr key iv data pubKey =
      Except.ok (ENCR_MARKER ++ (w ++ (iv ++ cbcEnc (pr.encB key) iv (pkcs7Pad data)))) := by
  simp only [createEncryptedMessage, encryptWithAES_eq pr data key iv hE hiv,
    encryptWithRsa_eq pr key pubKey P w hP hw hwl]

theorem checkMessageMarker_append (rest : List Nat) :
    checkMessageMarker (ENCR_MARKER ++ rest) = Except.ok () := by
  unfold checkMessageMarker
  rw [if_neg]
  push_neg
  constructor
  · simp [ENCR_MARKER, ENCR_MARKER_SIZE]
  · exact List.take_left' rfl

theorem createDecryptedMessage_append (pr : Prims) (privKey : String)
    (S : RsaPrivKey) (w iv c k : List Nat)
    (hS : pr.parsePriv privKey = some S) (hwl : w.length = S.size)
    (hun : S.unwrap w = some k) (hkl : k.length = 32)
    (hiv : iv.length = 16) :
    createDecryptedMessage pr (ENCR_MARKER ++ (w ++ (iv ++ c))) privKey =
      decryptData pr c k iv := by
  have hmark := checkMessageMarker_append (w ++ (iv ++ c))
  have hdrop8 : (ENCR_MARKER ++ (w ++ (iv ++ c))).drop ENCR_MARKER_SIZE =
      w ++ (iv ++ c) := List.drop_left' rfl
  have hdk : decryptKey pr (w ++ (iv ++ c)) privKey = Except.ok (k, S.size) := by
    simp only [decryptKey, hS]
    rw [if_neg (by rw [List.length_append, hwl]; omega)]
    rw [List.take_left' hwl]
    simp only [hun]
    rw [if_pos (show k.length = AES_256_KEY_LENGTH_BYTES from hkl)]
  have hdropw : (w ++ (iv ++ c)).drop S.size = iv ++ c := List.drop_left' hwl
  have hiv' : readIv (iv ++ c) = Except.ok iv := by
    simp only [readIv, AES_256_IV_LENGTH_BYTES]
    rw [if_neg (by rw [List.length_append, hiv]; omega)]
    rw [List.take_left' hiv]
  have hdropiv : (iv ++ c).drop AES_256_IV_LENGTH_BYTES = c := List.drop_left' hiv
  simp only [createDecryptedMessage, hmark, hdrop8, hdk, hdropw, hiv', hdropiv]

theorem decryptData_cbcEnc (pr : Prims) (key iv data : List Nat)
    (hgc : GoodCipher pr key) (hiv : iv.length = 16) :
    decryptData pr (cbcEnc (pr.encB key) iv (pkcs7Pad data)) key iv =
      if data.take 3 = MSG_RECOGNIZE_TAG then Except.ok (data.drop 3)
      else Except.error "Failed to decrypt message" := by
  have hE : ∀ b : List Nat, b.length = 16 → (pr.encB key b).length = 16 :=
    fun b hb => (hgc b hb).1
  have hlen : (cbcEnc (pr.encB key) iv (pkcs7Pad data)).length = (pkcs7Pad data).length :=
    cbcEnc_length _ _ _ hE hiv (pkcs7Pad_mod data)
  have hdec : cbcDec (pr.decB key) iv (cbcEnc (pr.encB key) iv (pkcs7Pad data)) =
      pkcs7Pad data := cbcDec_cbcEnc _ _ _ _ hgc hiv (pkcs7Pad_mod data)
  unfold decryptData
  rw [if_neg (by push_neg; rw [hlen, pkcs7Pad_length]; simp only [AES_BLOCK_SIZE]; omega)]
  rw [hdec, pkcs7Unpad_pkcs7Pad]
  rfl

/-- round-trip behaviour of the module for an arbitrary plaintext: the
envelope is produced, has the expected length, and decryption yields the
plaintext with its first 3 bytes stripped when they equal the recognition
tag, and the uniform decrypt error otherwise. -/
theorem roundtrip_core (pr : Prims) (key iv data : List Nat)
    (pubKey privKey : String) (P : RsaPubKey) (S : RsaPrivKey)
    (hkp : KeyPairMatch pr pubKey privKey P S)
    (hgc : GoodCipher pr key) (hk : key.length = 32) (hiv : iv.length = 16) :
    ∃ env, createEncryptedMessage pr key iv data pubKey = Except.ok env ∧
      env.length = 8 + P.size + 16 + (data.length + 16 - data.length % 16) ∧
      createDecryptedMessage pr env privKey =
        (if data.take 3 = MSG_RECOGNIZE_TAG then Except.ok (data.drop 3)
         else Except.error "Failed to decrypt message") := by
  obtain ⟨hP, hS, hsz, hwrap⟩ := hkp
  obtain ⟨w, hw, hwl, hun⟩ := hwrap key hk
  have hE : ∀ b : List Nat, b.length = 16 → (pr.encB key b).length = 16 :=
    fun b hb => (hgc b hb).1
  refine ⟨_, createEncryptedMessage_eq pr key iv data pubKey P w hP hw hwl hE hiv,
    ?_, ?_⟩
  · simp only [List.length_append]
    rw [hwl, hiv, cbcEnc_length _ _ _ hE hiv (pkcs7Pad_mod data), pkcs7Pad_length]
    have hm : ENCR_MARKER.length = 8 := rfl
    rw [hm]
    omega
  · rw [createDecryptedMessage_append pr privKey S w iv _ key hS
      (hwl.trans hsz.symm) hun hk hiv]
    exact decryptData_cbcEnc pr key iv data hgc hiv

theorem createEncryptedMessage_ok_inv (pr : Prims) (key iv data : List Nat)
    (pubKey : String) (env : List Nat)
    (h : createEncryptedMessage pr key iv data pubKey = Except.ok env) :
    ∃ c w, encryptWithAES pr data key iv = Except.ok c ∧
      encryptWithRsa pr key pubKey = Except.ok w ∧
      env = ENCR_MARKER ++ (w ++ (iv ++ c)) := by
  unfold createEncryptedMessage at h
  rcases hA : encryptWithAES pr data key iv with e | c
  · rw [hA] at h
    exact Except.noConfusion h
  · rw [hA] at h
    rcases hR : encryptWithRsa pr key pubKey with e | w
    · rw [hR] at h
      exact Except.noConfusion h
    · rw [hR] at h
      exact ⟨c, w, rfl, rfl, (Except.ok.inj h).symm⟩

theorem encryptWithAES_ok_inv (pr : Prims) (data key iv c : List Nat)
    (h : encryptWithAES pr data key iv = Except.ok c) :
    c.length = data.length + 16 - data.length % 16 := by
  unfold encryptWithAES at h
  split at h
  · next hcond =>
    obtain rfl := Except.ok.inj h
    simpa only [AES_BLOCK_SIZE] using hcond
  · exact Except.noConfusion h

theorem encryptWithRsa_ok_inv (pr : Prims) (data : List Nat) (pubKey : String)
    (P : RsaPubKey) (w : List Nat)
    (hP : pr.parsePub pubKey = some P)
    (h : encryptWithRsa pr data pubKey = Except.ok w) :
    w.length = P.size := by
  simp only [encryptWithRsa, hP] at h
  rcases hw : P.wrap data with _ | w' <;> simp only [hw] at h
  · exact Except.noConfusion h
  · by_cases hl : w'.length = P.size
    · rw [if_pos hl] at h
      obtain rfl := Except.ok.inj h
      exact hl
    · rw [if_neg hl] at h
      exact Except.noConfusion h

theorem signMessage_ok_inv (pr : Prims) (privKey : String) (m s : List Nat)
    (S : RsaPrivKey) (hS : pr.parsePriv privKey = some S)
    (h : signMessage pr privKey m = Except.ok s) :
    pr.rsaSign S m = some s := by
  simp only [signMessage, RSASign, createPrivateRSA, hS] at h
  rcases hv : pr.rsaSign S m with _ | sg <;> simp only [hv] at h
  · exact Except.noConfusion h
  · by_cases hl : sg.length = RSA_SIGNATURE_LENGTH
    · rw [if_pos hl] at h
      rw [← Except.ok.inj h]
    · rw [if_neg hl] at h
      exact Except.noConfusion h

theorem checkMessageMarker_error_inv (data : List Nat) (e : String)
    (h : checkMessageMarker data = Except.error e) :
    e = "Failed to decrypt message" := by
  unfold checkMessageMarker at h
  split at h
  · exact (Except.error.inj h).symm
  · exact Except.noConfusion h

theorem decryptKey_error_inv (pr : Prims) (rest : List Nat) (privKey : String)
    (e : String) (h : decryptKey pr rest privKey = Except.error e) :
    e = "Failed to decrypt message" ∨ e = "Failed to create RSA" := by
  rcases hS : pr.parsePriv privKey with _ | S <;> simp only [decryptKey, hS] at h
  · exact Or.inr (Except.error.inj h).symm
  · split at h
    · exact Or.inl (Except.error.inj h).symm
    · rcases hu : S.unwrap (rest.take S.size) with _ | k <;> simp only [hu] at h
      · exact Or.inl (Except.error.inj h).symm
      · split at h
        · exact Except.noConfusion h
        · exact Or.inl (Except.error.inj h).symm

theorem readIv_error_inv (data : List Nat) (e : String)
    (h : readIv data = Except.error e) : e = "Failed to decrypt message" := by
  unfold readIv at h
  split at h
  · exact (Except.error.inj h).symm
  · exact Except.noConfusion h

theorem decryptData_error_inv (pr : Prims) (encryptedData key iv : List Nat)
    (e : String) (h : decryptData pr encryptedData key iv = Except.error e) :
    e = "Failed to decrypt message" := by
  unfold decryptData at h
  split at h
  · exact (Except.error.inj h).symm
  · rcases hu : pkcs7Unpad (cbcDec (pr.decB key) iv encryptedData) with _ | d <;>
      simp only [hu] at h
    · exact (Except.error.inj h).symm
    · split at h
      · exact Except.noConfusion h
      · exact (Except.error.inj h).symm

theorem decryptKey_cases (pr : Prims) (rest : List Nat) (privKey : String)
    (S : RsaPrivKey) (hS : pr.parsePriv privKey = some S) :
    decryptKey pr rest privKey = Except.error "Failed to decrypt message" ∨
      ∃ k, decryptKey pr rest privKey = Except.ok (k, S.size) := by
  simp only [decryptKey, hS]
  by_cases hlt : rest.length < S.size
  · rw [if_pos hlt]
    exact Or.inl rfl
  · rw [if_neg hlt]
    rcases hu : S.unwrap (rest.take S.size) with _ | k <;> simp only [hu]
    · left
      trivial
    · by_cases hk : k.length = AES_256_KEY_LENGTH_BYTES
      · rw [if_pos hk]
        exact Or.inr ⟨k, rfl⟩
      · rw [if_neg hk]
        exact Or.inl rfl

theorem idPrims_goodCipher : GoodCipher idPrims key0 :=
  fun _ hb => ⟨hb, rfl⟩

theorem idPrims_keypair : KeyPairMatch idPrims "PUB1" "PRIV1" pub1 priv1 := by
  refine ⟨rfl, rfl, rfl, ?_⟩
  intro k hk
  have hlen : (k ++ List.replicate 224 0).length = 256 := by
    rw [List.length_append, hk, List.length_replicate]
  refine ⟨k ++ List.replicate 224 0, ?_, ?_, ?_⟩
  · show (if k.length = 32 then some (k ++ List.replicate 224 0) else none) =
      some (k ++ List.replicate 224 0)
    rw [if_pos hk]
  · exact hlen
  · have hu : priv1.unwrap (k ++ List.replicate 224 0) =
        if (k ++ List.replicate 224 0).length = 256 then
          some ((k ++ List.replicate 224 0).take 32) else none := rfl
    rw [hu, if_pos hlen, List.take_left' hk]

theorem toySig_inj {n n' : Nat} {m m' : List Nat}
    (h : toySig n m = toySig n' m') : n = n' ∧ m = m' := by
  unfold toySig at h
  obtain ⟨h1, h2⟩ := List.cons.inj h
  obtain ⟨h3, h4⟩ := List.cons.inj h2
  exact ⟨h1, (List.append_inj h4 h3).1⟩

/-- C1 (counterexample): the round-trip claim
`createDecryptedMessage(createEncryptedMessage(plaintext, pub), priv) == plaintext`
fails at the zero-length plaintext with the concrete primitives: encryption
succeeds and produces `cexEnvEmpty`, but decryption of that envelope with
the matching private key returns the decrypt error (the recognition tag
check fails, since encryption never prepended the tag), not `Except.ok []`. -/
theorem C1_counterexample :
    createEncryptedMessage idPrims key0 iv0 [] "PUB1" = Except.ok cexEnvEmpty ∧
    createDecryptedMessage idPrims cexEnvEmpty "PRIV1" =
      Except.error "Failed to decrypt message" ∧
    Except.error "Failed to decrypt message" ≠
      (Except.ok ([] : List Nat) : Except String (List Nat)) :=
  ⟨rfl, rfl, fun h => Except.noConfusion h⟩

/-- C1 (amended): for every plaintext whose first 3 bytes are the
recognition tag "MSG", and every matched keypair, cipher and fresh
session key and IV, decrypting the envelope produced by encryption
returns the plaintext with the 3-byte tag stripped; the tag must be
supplied by the caller, since `createEncryptedMessage` does not prepend
it. -/
theorem C1_roundtrip_tagged (pr : Prims) (key iv data : List Nat)
    (pubKey privKey : String) (P : RsaPubKey) (S : RsaPrivKey)
    (hkp : KeyPairMatch pr pubKey privKey P S)
    (hgc : GoodCipher pr key) (hk : key.length = 32) (hiv : iv.length = 16)
    (htag : data.take 3 = MSG_RECOGNIZE_TAG) :
    ∃ env, createEncryptedMessage pr key iv data pubKey = Except.ok env ∧
      createDecryptedMessage pr env privKey = Except.ok (data.drop 3) := by
  obtain ⟨env, he, _, hd⟩ :=
    roundtrip_core pr key iv data pubKey privKey P S hkp hgc hk hiv
  exact ⟨env, he, by rw [hd, if_pos htag]⟩

/-- C1 (witness): the amended round trip evaluated at the concrete
primitives with plaintext `"MSG" ++ [104, 105]`. -/
theorem C1_witness :
    ∃ env, createEncryptedMessage idPrims key0 iv0
        (MSG_RECOGNIZE_TAG ++ [104, 105]) "PUB1" = Except.ok env ∧
      createDecryptedMessage idPrims env "PRIV1" =
        Except.ok ((MSG_RECOGNIZE_TAG ++ [104, 105]).drop 3) :=
  C1_roundtrip_tagged idPrims key0 iv0 (MSG_RECOGNIZE_TAG ++ [104, 105])
    "PUB1" "PRIV1" pub1 priv1 idPrims_keypair idPrims_goodCipher rfl rfl rfl

/-- C2 (counterexample): encryption does not form `P' = tag ++ plaintext`.
For the plaintext `[1, 2, 3, 4]`, the envelope produced is
`marker ++ wrapped0 ++ iv0 ++ ct4` and the CBC-decryption of its
ciphertext begins with `[1, 2, 3]`, not with the recognition tag. -/
theorem C2_counterexample :
    createEncryptedMessage idPrims key0 iv0 [1, 2, 3, 4] "PUB1" =
      Except.ok (ENCR_MARKER ++ (wrapped0 ++ (iv0 ++ ct4))) ∧
    (cbcDec (idPrims.decB key0) iv0 ct4).take 3 ≠ MSG_RECOGNIZE_TAG :=
  ⟨rfl, by decide⟩

/-- C2 (amended): encryption symmetric-encrypts the plaintext exactly as
supplied, without prepending the recognition tag: the CBC-decryption of the
ciphertext of any envelope it produces is the padded plaintext, so its
first 3 bytes equal the plaintext's own first 3 bytes (when the plaintext
has at least 3 bytes), not a tag added by the encryptor. -/
theorem C2_no_tag_prepended (pr : Prims) (key iv data : List Nat)
    (pubKey : String) (P : RsaPubKey) (w : List Nat)
    (hP : pr.parsePub pubKey = some P) (hw : P.wrap key = some w)
    (hwl : w.length = P.size)
    (hgc : GoodCipher pr key) (hiv : iv.length = 16) (h3 : 3 ≤ data.length) :
    ∃ c, createEncryptedMessage pr key iv data pubKey =
        Except.ok (ENCR_MARKER ++ (w ++ (iv ++ c))) ∧
      cbcDec (pr.decB key) iv c = pkcs7Pad data ∧
      (cbcDec (pr.decB key) iv c).take 3 = data.take 3 := by
  have hE : ∀ b : List Nat, b.length = 16 → (pr.encB key b).length = 16 :=
    fun b hb => (hgc b hb).1
  refine ⟨cbcEnc (pr.encB key) iv (pkcs7Pad data),
    createEncryptedMessage_eq pr key iv data pubKey P w hP hw hwl hE hiv, ?_, ?_⟩
  · exact cbcDec_cbcEnc _ _ _ _ hgc hiv (pkcs7Pad_mod data)
  · rw [cbcDec_cbcEnc _ _ _ _ hgc hiv (pkcs7Pad_mod data), pkcs7Pad]
    exact List.take_append_of_le_length h3

/-- C2 (witness): the amended statement evaluated at the concrete
primitives with plaintext `[1, 2, 3, 4]`. -/
theorem C2_witness :
    ∃ c, createEncryptedMessage idPrims key0 iv0 [1, 2, 3, 4] "PUB1" =
        Except.ok (ENCR_MARKER ++ (wrapped0 ++ (iv0 ++ c))) ∧
      cbcDec (idPrims.decB key0) iv0 c = pkcs7Pad [1, 2, 3, 4] ∧
      (cbcDec (idPrims.decB key0) iv0 c).take 3 = [1, 2, 3, 4].take 3 :=
  C2_no_tag_prepended idPrims key0 iv0 [1, 2, 3, 4] "PUB1" pub1 wrapped0
    rfl rfl rfl idPrims_goodCipher rfl (by decide)

/-- C3: for every parsable public key, any envelope returned by
`createEncryptedMessage` is the ordered concatenation of the 8-byte marker,
a wrapped key of exactly the recipient's RSA modulus byte length, the
16-byte IV, and a ciphertext whose length is a non-zero multiple of 16
(namely `dataLength + 16 - dataLength % 16`); the total length is
`8 + modulus_bytes + 16 + ciphertext_len`. -/
theorem C3_envelope_format (pr : Prims) (key iv data : List Nat)
    (pubKey : String) (P : RsaPubKey) (env : List Nat)
    (hP : pr.parsePub pubKey = some P) (hiv : iv.length = 16)
    (henv : createEncryptedMessage pr key iv data pubKey = Except.ok env) :
    ∃ w c, env = ENCR_MARKER ++ (w ++ (iv ++ c)) ∧ ENCR_MARKER.length = 8 ∧
      w.length = P.size ∧ c.length = data.length + 16 - data.length % 16 ∧
      c.length % 16 = 0 ∧ c.length ≠ 0 ∧
      env.length = 8 + P.size + 16 + c.length := by
  obtain ⟨c, w, hA, hR, henv'⟩ :=
    createEncryptedMessage_ok_inv pr key iv data pubKey env henv
  have hcl := encryptWithAES_ok_inv pr data key iv c hA
  have hwl := encryptWithRsa_ok_inv pr key pubKey P w hP hR
  refine ⟨w, c, henv', rfl, hwl, hcl, by omega, by omega, ?_⟩
  rw [henv']
  simp only [List.length_append]
  have hm : ENCR_MARKER.length = 8 := rfl
  rw [hm, hwl, hiv]
  omega

/-- C3 (witness): the envelope format evaluated at the concrete primitives
with plaintext `[9]`. -/
theorem C3_witness :
    ∃ w c, env9 = ENCR_MARKER ++ (w ++ (iv0 ++ c)) ∧ ENCR_MARKER.length = 8 ∧
      w.length = pub1.size ∧
      c.length = [9].length + 16 - [9].length % 16 ∧
      c.length % 16 = 0 ∧ c.length ≠ 0 ∧
      env9.length = 8 + pub1.size + 16 + c.length :=
  C3_envelope_format idPrims key0 iv0 [9] "PUB1" pub1 env9 rfl rfl rfl

/-- C4: under the standard assumptions on the RSA-SHA256 primitives for a
matched keypair (a signature produced with the private key verifies as
true under the matching public key, verifies as false against any other
message, and verifies as false under the public key of a different
modulus), the module's `verifySignature` accepts `signMessage`'s output on
the signed message, rejects it on a different message, and rejects it
under a non-matching public key. -/
theorem C4_signature_correctness (pr : Prims) (pubKey privKey pubKeyB : String)
    (msg other s s2 : List Nat) (P PB : RsaPubKey) (S : RsaPrivKey)
    (hP : pr.parsePub pubKey = some P)
    (hPB : pr.parsePub pubKeyB = some PB)
    (hS : pr.parsePriv privKey = some S)
    (hver1 : ∀ m sg, pr.rsaSign S m = some sg → pr.rsaVerify P m sg = some true)
    (hver2 : ∀ m m' sg, pr.rsaSign S m' = some sg → m ≠ m' →
      pr.rsaVerify P m sg = some false)
    (hver3 : ∀ m m' sg, pr.rsaSign S m' = some sg → pr.rsaVerify PB m sg = some false)
    (hs : signMessage pr privKey msg = Except.ok s)
    (hs2 : signMessage pr privKey other = Except.ok s2)
    (hne : msg ≠ other) :
    verifySignature pr pubKey msg s = true ∧
    verifySignature pr pubKey msg s2 = false ∧
    verifySignature pr pubKeyB msg s = false := by
  have hsig := signMessage_ok_inv pr privKey msg s S hS hs
  have hsig2 := signMessage_ok_inv pr privKey other s2 S hS hs2
  refine ⟨?_, ?_, ?_⟩
  · have hv := hver1 msg s hsig
    simp [verifySignature, RSAVerifySignature, createPublicRSA, hP, hv]
  · have hv := hver2 msg other s2 hsig2 hne
    simp [verifySignature, RSAVerifySignature, createPublicRSA, hP, hv]
  · have hv := hver3 msg msg s hsig
    simp [verifySignature, RSAVerifySignature, createPublicRSA, hPB, hv]

/-- C4 (witness): sign/verify evaluated at the concrete primitives with the
injective toy signature scheme: message `[1]`, other message `[2]`,
matching key "PUB1", non-matching key "PUB2". -/
theorem C4_witness :
    verifySignature idPrims "PUB1" [1] (toySig 1 [1]) = true ∧
    verifySignature idPrims "PUB1" [1] (toySig 1 [2]) = false ∧
    verifySignature idPrims "PUB2" [1] (toySig 1 [1]) = false :=
  C4_signature_correctness idPrims "PUB1" "PRIV1" "PUB2" [1] [2]
    (toySig 1 [1]) (toySig 1 [2]) pub1 pub2 priv1 rfl rfl rfl
    (fun m sg hsg => by
      have hsg' : some (toySig 1 m) = some sg := hsg
      rw [← Option.some.inj hsg']
      show some (decide (toySig 1 m = toySig 1 m)) = some true
      simp)
    (fun m m' sg hsg hnem => by
      have hsg' : some (toySig 1 m') = some sg := hsg
      rw [← Option.some.inj hsg']
      show some (decide (toySig 1 m' = toySig 1 m)) = some false
      have hneq : toySig 1 m' ≠ toySig 1 m :=
        fun hEq => hnem ((toySig_inj hEq).2.symm)
      rw [decide_eq_false hneq])
    (fun m m' sg hsg => by
      have hsg' : some (toySig 1 m') = some sg := hsg
      rw [← Option.some.inj hsg']
      show some (decide (toySig 1 m' = toySig 2 m)) = some false
      have hneq : toySig 1 m' ≠ toySig 2 m :=
        fun hEq => absurd (toySig_inj hEq).1 (by decide)
      rw [decide_eq_false hneq])
    rfl rfl (by decide)

/-- C5 (counterexample): the exported `verifySignature` cannot distinguish
a verification that could not be performed from a performed negative
verification: with an unparsable key ("NOKEY") the inner
`RSAVerifySignature` reports `(false, false)` (could not verify), while
with the valid key "PUB1" and a non-matching signature it reports
`(true, false)` (performed, mismatch), yet `verifySignature` returns the
identical `false` in both cases. -/
theorem C5_counterexample :
    verifySignature idPrims "NOKEY" [1] (toySig 1 [1]) = false ∧
    RSAVerifySignature idPrims (idPrims.parsePub "NOKEY") (toySig 1 [1]) [1] =
      (false, false) ∧
    verifySignature idPrims "PUB1" [1] (toySig 1 [9]) = false ∧
    RSAVerifySignature idPrims (idPrims.parsePub "PUB1") (toySig 1 [9]) [1] =
      (true, false) :=
  ⟨rfl, rfl, rfl, rfl⟩

/-- C5 (amended): the inner `RSAVerifySignature` does distinguish the three
outcomes through its `(result, authentic)` pair, but the exported
`verifySignature` returns `result && authentic`: it is `true` exactly when
a parse succeeded and the verification primitive reported a match, and it
collapses both the performed-mismatch and the could-not-verify outcomes
into the same `false`, so its caller cannot tell them apart. -/
theorem C5_collapsed_outcome (pr : Prims) (pubKey : String) (msg s : List Nat) :
    verifySignature pr pubKey msg s = true ↔
      ∃ P, pr.parsePub pubKey = some P ∧ pr.rsaVerify P msg s = some true := by
  unfold verifySignature RSAVerifySignature createPublicRSA
  rcases hP : pr.parsePub pubKey with _ | P
  · simp
  · rcases hv : pr.rsaVerify P msg s with _ | b
    · simp [hv]
    · cases b <;> simp [hv]

/-- C6: (a) any buffer not starting with the 8-byte marker — including any
buffer shorter than 8 bytes — is rejected with the decrypt error before
any cryptographic work is attempted: the rejection holds for every
instantiation of the cryptographic primitives, so no primitive is ever
consulted; (b) with a parsable private key of modulus byte length
`S.size`, any envelope shorter than `8 + S.size + 16` is rejected with the
decrypt error.  In both cases decryption returns no output. -/
theorem C6_marker_truncation_rejection :
    (∀ (pr : Prims) (data : List Nat) (privKey : String),
        data.length < 8 ∨ data.take 8 ≠ ENCR_MARKER →
        createDecryptedMessage pr data privKey =
          Except.error "Failed to decrypt message") ∧
    (∀ (pr : Prims) (data : List Nat) (privKey : String) (S : RsaPrivKey),
        pr.parsePriv privKey = some S → data.length < 8 + S.size + 16 →
        createDecryptedMessage pr data privKey =
          Except.error "Failed to decrypt message") := by
  have hmarker : ∀ (pr : Prims) (data : List Nat) (privKey : String),
      data.length < 8 ∨ data.take 8 ≠ ENCR_MARKER →
      createDecryptedMessage pr data privKey =
        Except.error "Failed to decrypt message" := by
    intro pr data privKey h
    have h' : data.length < ENCR_MARKER_SIZE ∨
        data.take ENCR_MARKER_SIZE ≠ ENCR_MARKER := h
    have hm : checkMessageMarker data = Except.error "Failed to decrypt message" := by
      unfold checkMessageMarker
      rw [if_pos h']
    simp only [createDecryptedMessage, hm]
  refine ⟨hmarker, ?_⟩
  intro pr data privKey S hS hlen
  by_cases hm : data.length < 8 ∨ data.take 8 ≠ ENCR_MARKER
  · exact hmarker pr data privKey hm
  · push_neg at hm
    obtain ⟨h8, hmk⟩ := hm
    have h' : ¬(data.length < ENCR_MARKER_SIZE ∨
        data.take ENCR_MARKER_SIZE ≠ ENCR_MARKER) := by
      push_neg
      exact ⟨h8, hmk⟩
    have hok : checkMessageMarker data = Except.ok () := by
      unfold checkMessageMarker
      rw [if_neg h']
    simp only [createDecryptedMessage, hok]
    rcases decryptKey_cases pr (data.drop ENCR_MARKER_SIZE) privKey S hS with
      hdk | ⟨k, hdk⟩
    · simp only [hdk]
    · simp only [hdk]
      have hriv : readIv ((data.drop ENCR_MARKER_SIZE).drop S.size) =
          Except.error "Failed to decrypt message" := by
        unfold readIv
        rw [if_pos (by
          rw [List.length_drop, List.length_drop]
          simp only [ENCR_MARKER_SIZE, AES_256_IV_LENGTH_BYTES]
          omega)]
      simp only [hriv]

/-- C6 (witness): both rejections evaluated at the concrete primitives: the
3-byte buffer `[0, 1, 2]` (no marker) and an 18-byte buffer starting with
the marker but shorter than `8 + 256 + 16`. -/
theorem C6_witness :
    createDecryptedMessage idPrims [0, 1, 2] "PRIV1" =
      Except.error "Failed to decrypt message" ∧
    createDecryptedMessage idPrims (ENCR_MARKER ++ List.replicate 10 0) "PRIV1" =
      Except.error "Failed to decrypt message" :=
  ⟨C6_marker_truncation_rejection.1 idPrims [0, 1, 2] "PRIV1" (by decide),
   C6_marker_truncation_rejection.2 idPrims (ENCR_MARKER ++ List.replicate 10 0)
     "PRIV1" priv1 rfl (by decide)⟩

/-- C7 (counterexample): two failures of different claimed kinds are not
distinguishable: a bad-marker buffer (`[0]`, the spec's FormatError class)
and a well-formed envelope whose decrypted plaintext fails the recognition
tag check (the envelope of `[1, 2, 3, 4]`, the spec's AuthenticationError
class) produce the identical error value. -/
theorem C7_counterexample :
    createDecryptedMessage idPrims [0] "PRIV1" =
      Except.error "Failed to decrypt message" ∧
    createDecryptedMessage idPrims (ENCR_MARKER ++ (wrapped0 ++ (iv0 ++ ct4)))
      "PRIV1" = Except.error "Failed to decrypt message" :=
  ⟨rfl, rfl⟩

/-- C7 (amended): every failure of `createDecryptedMessage` carries one of
only two error values: the single uniform string "Failed to decrypt
message" (thrown for bad marker, truncation, OAEP failure, wrong key
length, misaligned ciphertext, padding failure and tag mismatch alike) or
"Failed to create RSA" (private key parse failure) — so the claimed
failure classes FormatError / CryptoError / AuthenticationError are not
distinguishable by the caller. -/
theorem C7_uniform_error (pr : Prims) (data : List Nat) (privKey : String)
    (e : String)
    (h : createDecryptedMessage pr data privKey = Except.error e) :
    e = "Failed to decrypt message" ∨ e = "Failed to create RSA" := by
  unfold createDecryptedMessage at h
  rcases hm : checkMessageMarker data with em | u <;> simp only [hm] at h
  · have he : em = e := Except.error.inj h
    have h1 := checkMessageMarker_error_inv data em hm
    exact Or.inl (he ▸ h1)
  · rcases hdk : decryptKey pr (data.drop ENCR_MARKER_SIZE) privKey with
      ed | ⟨k, len⟩ <;> simp only [hdk] at h
    · have he : ed = e := Except.error.inj h
      have h1 := decryptKey_error_inv pr _ privKey ed hdk
      exact h1.imp (fun x => he ▸ x) (fun x => he ▸ x)
    · rcases hri : readIv ((data.drop ENCR_MARKER_SIZE).drop len) with
        er | ivv <;> simp only [hri] at h
      · have he : er = e := Except.error.inj h
        have h1 := readIv_error_inv _ er hri
        exact Or.inl (he ▸ h1)
      · exact Or.inl (decryptData_error_inv pr _ k ivv e h)

/-- C7 (witness): the uniform-error statement applied at the concrete
bad-marker buffer `[0]`. -/
theorem C7_witness :
    ("Failed to decrypt message" = "Failed to decrypt message" ∨
      "Failed to decrypt message" = "Failed to create RSA") :=
  C7_uniform_error idPrims [0] "PRIV1" "Failed to decrypt message" rfl

/-- C8: `matchRSAKeys` returns `true` exactly when both keys parse
successfully and their modulus values are equal (`BN_cmp == 0`); in every
other case — including any parse failure — it returns the boolean `false`
rather than raising (its return type is `Bool`, and no failure path
exists).  For a generated pair the moduli coincide, so the right-hand side
holds; for keys from two independently generated pairs the moduli differ,
so both sides fail. -/
theorem C8_matchRSAKeys_iff (pr : Prims) (publicKey privateKey : String) :
    matchRSAKeys pr publicKey privateKey = true ↔
      ∃ P S, pr.parsePub publicKey = some P ∧
        pr.parsePriv privateKey = some S ∧ P.n = S.n := by
  unfold matchRSAKeys createPrivateRSA createPublicRSA
  rcases hS : pr.parsePriv privateKey with _ | S <;>
    rcases hP : pr.parsePub publicKey with _ | P <;>
      simp [beq_iff_eq]

/-- C9 (counterexample): for the 11-byte plaintext "hello world" with the
concrete 2048-bit keys, the envelope is exactly 296 bytes long as claimed,
but decrypting that exact envelope with the matching private key does not
return "hello world": it fails with the decrypt error, because the module
requires the decrypted plaintext to begin with the recognition tag which
encryption never prepended. -/
theorem C9_counterexample :
    createEncryptedMessage idPrims key0 iv0 helloWorld "PUB1" =
      Except.ok envHello ∧
    envHello.length = 296 ∧
    createDecryptedMessage idPrims envHello "PRIV1" =
      Except.error "Failed to decrypt message" :=
  ⟨rfl, by decide, rfl⟩

/-- C9 (amended): with a matched 2048-bit keypair (modulus byte length
256), the envelope for the 11-byte plaintext "hello world" is exactly
`8 + 256 + 16 + 16 = 296` bytes but its decryption fails with the decrypt
error; the envelope for the 14-byte plaintext `"MSG" ++ "hello world"`
(tag prepended by the caller, padding to one 16-byte block) is also 296
bytes and decrypting it with the matching private key returns exactly
"hello world". -/
theorem C9_hello_world_scenario (pr : Prims) (key iv : List Nat)
    (pubKey privKey : String) (P : RsaPubKey) (S : RsaPrivKey)
    (hkp : KeyPairMatch pr pubKey privKey P S) (hgc : GoodCipher pr key)
    (hk : key.length = 32) (hiv : iv.length = 16) (hsz : P.size = 256) :
    (∃ env, createEncryptedMessage pr key iv helloWorld pubKey = Except.ok env ∧
       env.length = 296 ∧
       createDecryptedMessage pr env privKey =
         Except.error "Failed to decrypt message") ∧
    (∃ env, createEncryptedMessage pr key iv (MSG_RECOGNIZE_TAG ++ helloWorld)
         pubKey = Except.ok env ∧ env.length = 296 ∧
       createDecryptedMessage pr env privKey = Except.ok helloWorld) := by
  constructor
  · obtain ⟨env, he, hl, hd⟩ :=
      roundtrip_core pr key iv helloWorld pubKey privKey P S hkp hgc hk hiv
    refine ⟨env, he, ?_, ?_⟩
    · rw [hl, hsz]
      decide
    · rw [hd, if_neg (by decide)]
  · obtain ⟨env, he, hl, hd⟩ :=
      roundtrip_core pr key iv (MSG_RECOGNIZE_TAG ++ helloWorld) pubKey privKey
        P S hkp hgc hk hiv
    refine ⟨env, he, ?_, ?_⟩
    · rw [hl, hsz]
      decide
    · rw [hd, if_pos (by rfl)]
      rfl

/-- C9 (witness): the amended scenario evaluated at the concrete
primitives. -/
theorem C9_witness :
    (∃ env, createEncryptedMessage idPrims key0 iv0 helloWorld "PUB1" =
        Except.ok env ∧ env.length = 296 ∧
       createDecryptedMessage idPrims env "PRIV1" =
         Except.error "Failed to decrypt message") ∧
    (∃ env, createEncryptedMessage idPrims key0 iv0
         (MSG_RECOGNIZE_TAG ++ helloWorld) "PUB1" = Except.ok env ∧
       env.length = 296 ∧
       createDecryptedMessage idPrims env "PRIV1" = Except.ok helloWorld) :=
  C9_hello_world_scenario idPrims key0 iv0 "PUB1" "PRIV1" pub1 priv1
    idPrims_keypair idPrims_goodCipher rfl rfl rfl

/-- C10: the claim that the decrypted buffer always holds at least 3 bytes
when CBC decryption and padding removal succeed is violated by the code: a
well-formed one-block ciphertext (16 bytes, a non-zero multiple of the
block size) can CBC-decrypt to a full padding block, so padding removal
succeeds with a 0-byte buffer — shorter than the 3-byte recognition tag
whose bytes `decryptData` reads unconditionally (`begin()+3` in the C++
code is then out of bounds).  In this model the total `take` makes the
comparison fail and the uniform decrypt error is returned. -/
theorem C10_short_decrypted_buffer :
    pkcs7Unpad (cbcDec (idPrims.decB key0) iv0 (List.replicate 16 16)) =
      some ([] : List Nat) ∧
    (List.replicate (16 : Nat) 16).length % 16 = 0 ∧
    (List.replicate (16 : Nat) 16).length ≠ 0 ∧
    ([] : List Nat).length < MSG_RECOGNIZE_TAG.length ∧
    decryptData idPrims (List.replicate 16 16) key0 iv0 =
      Except.error "Failed to decrypt message" :=
  ⟨rfl, rfl, by decide, by decide, rfl⟩

end MessageEncryption
